import Mathlib

/-!
Formal model of the EM4x70 reader-side protocol engine (armsrc/em4x70.c).

The development shallowly embeds the pure computational core of the driver:
the bitstream builders for the six commands, the legacy per-command transmit
path, the pulse-length demodulator loop, the ACK detector, the bit-to-byte
conversion, and the brute-force nonce mutation.  Hardware access (ADC
sampling, tick waits, field modulation) is abstracted away: transmit
functions return the chronological list of bits they emit, and receive
functions consume the list of measured pulse widths.

Machine integers are modelled as Nat with explicit truncation (mod 256 for
uint8 values) exactly where the C code truncates.  Bit buffers store one
bit per byte, as in the C struct em4x70_bitstream_t; the backing array is
modelled as a total function from index to stored value, updated by setBit.
-/

/-! ## Timing constants (ticks), from the top of em4x70.c -/

def TICKS_PER_FC : Nat := 12

def EM4X70_T_TAG_HALF_PERIOD : Nat := 16 * TICKS_PER_FC

def EM4X70_T_TAG_FULL_PERIOD : Nat := 32 * TICKS_PER_FC

def EM4X70_T_TAG_TOLERANCE : Nat := 8 * TICKS_PER_FC

def EM4X70_T_READ_HEADER_LEN : Nat := 16

/-! ## Command identifiers -/

def EM4X70_COMMAND_ID : Nat := 0x01

def EM4X70_COMMAND_UM1 : Nat := 0x02

def EM4X70_COMMAND_AUTH : Nat := 0x03

def EM4X70_COMMAND_PIN : Nat := 0x04

def EM4X70_COMMAND_WRITE : Nat := 0x05

def EM4X70_COMMAND_UM2 : Nat := 0x07

/-! ## Bit-symbol buffers

The C code stores bitstreams in a fixed uint8_t array with one bit per
byte.  The array contents are modelled as a function from index to value;
a store one_bit_per_byte[i] = v becomes setBit f i v.  The builders first
memset the whole structure to zero, which is the constant-zero function.
-/

def setBit (bits : Nat → Nat) (index value : Nat) : Nat → Nat :=
  fun j => if j = index then value else bits j

structure em4x70_bitstream_t where
  bitcount : Nat
  one_bit_per_byte : Nat → Nat

structure em4x70_command_bitstream_t where
  command : Nat
  to_send : em4x70_bitstream_t
  to_receive : em4x70_bitstream_t

/-- Transcription of add_byte_to_bitstream: 8 bits of b, MSB first, at
starting_index .. starting_index+7. -/
def add_byte_to_bitstream (bits : Nat → Nat) (b starting_index : Nat) : Nat → Nat :=
  let bits := setBit bits (starting_index + 0) (if b &&& 0x80 ≠ 0 then 1 else 0)
  let bits := setBit bits (starting_index + 1) (if b &&& 0x40 ≠ 0 then 1 else 0)
  let bits := setBit bits (starting_index + 2) (if b &&& 0x20 ≠ 0 then 1 else 0)
  let bits := setBit bits (starting_index + 3) (if b &&& 0x10 ≠ 0 then 1 else 0)
  let bits := setBit bits (starting_index + 4) (if b &&& 0x08 ≠ 0 then 1 else 0)
  let bits := setBit bits (starting_index + 5) (if b &&& 0x04 ≠ 0 then 1 else 0)
  let bits := setBit bits (starting_index + 6) (if b &&& 0x02 ≠ 0 then 1 else 0)
  setBit bits (starting_index + 7) (if b &&& 0x01 ≠ 0 then 1 else 0)

/-- Transcription of add_nibble_to_bitstream: the low 4 bits of nibble,
MSB first, at starting_index .. starting_index+3. -/
def add_nibble_to_bitstream (bits : Nat → Nat) (nibble starting_index : Nat) : Nat → Nat :=
  let n := nibble &&& 0x0F
  let bits := setBit bits (starting_index + 0) (if n &&& 0x08 ≠ 0 then 1 else 0)
  let bits := setBit bits (starting_index + 1) (if n &&& 0x04 ≠ 0 then 1 else 0)
  let bits := setBit bits (starting_index + 2) (if n &&& 0x02 ≠ 0 then 1 else 0)
  setBit bits (starting_index + 3) (if n &&& 0x01 ≠ 0 then 1 else 0)

/-- Transcription of add_nibble_parity_to_bitstream: a single parity bit,
looked up in the constant 0x6996, at the given index. -/
def add_nibble_parity_to_bitstream (bits : Nat → Nat) (nibble index : Nat) : Nat → Nat :=
  let n := nibble &&& 0x0F
  setBit bits index (if 0x6996 &&& (1 <<< n) = 0 then 0 else 1)

/-! ## Bitstream builders for the six commands

Each builder mirrors its C counterpart: zero the structure, write the
4-bit command encoding at indices 0..3, write the payload, set bitcount
and the expected receive bitcount.  Fixed-bound C loops are unrolled with
their concrete indices.  Byte-array arguments (rnd, frnd, tag_id) are
lists read with getD, matching the C pointer indexing.
-/

def create_legacy_em4x70_bitstream_for_cmd_id
    (with_command_parity : Bool) : em4x70_command_bitstream_t :=
  let bits : Nat → Nat := fun _ => 0
  let bits :=
    if with_command_parity then
      setBit (setBit (setBit (setBit bits 0 0) 1 0) 2 1) 3 1
    else
      setBit (setBit (setBit (setBit bits 0 0) 1 0) 2 0) 3 1
  ⟨EM4X70_COMMAND_ID, ⟨4, bits⟩, ⟨32, fun _ => 0⟩⟩

def create_legacy_em4x70_bitstream_for_cmd_um1
    (with_command_parity : Bool) : em4x70_command_bitstream_t :=
  let bits : Nat → Nat := fun _ => 0
  let bits :=
    if with_command_parity then
      setBit (setBit (setBit (setBit bits 0 0) 1 1) 2 0) 3 1
    else
      setBit (setBit (setBit (setBit bits 0 0) 1 0) 2 1) 3 0
  ⟨EM4X70_COMMAND_UM1, ⟨4, bits⟩, ⟨32, fun _ => 0⟩⟩

def create_legacy_em4x70_bitstream_for_cmd_um2
    (with_command_parity : Bool) : em4x70_command_bitstream_t :=
  let bits : Nat → Nat := fun _ => 0
  let bits :=
    if with_command_parity then
      setBit (setBit (setBit (setBit bits 0 1) 1 1) 2 1) 3 1
    else
      setBit (setBit (setBit (setBit bits 0 0) 1 1) 2 1) 3 1
  ⟨EM4X70_COMMAND_UM2, ⟨4, bits⟩, ⟨64, fun _ => 0⟩⟩

def create_legacy_em4x70_bitstream_for_cmd_auth
    (with_command_parity : Bool) (rnd frnd : List Nat) : em4x70_command_bitstream_t :=
  let bits : Nat → Nat := fun _ => 0
  let bits :=
    if with_command_parity then
      setBit (setBit (setBit (setBit bits 0 0) 1 1) 2 1) 3 0
    else
      setBit (setBit (setBit (setBit bits 0 0) 1 0) 2 1) 3 1
  -- 56-bit nonce at indices 4 .. 59 (loop i = 0 .. 6, idx = 4 + 8*i)
  let bits := add_byte_to_bitstream bits (rnd.getD 0 0) 4
  let bits := add_byte_to_bitstream bits (rnd.getD 1 0) 12
  let bits := add_byte_to_bitstream bits (rnd.getD 2 0) 20
  let bits := add_byte_to_bitstream bits (rnd.getD 3 0) 28
  let bits := add_byte_to_bitstream bits (rnd.getD 4 0) 36
  let bits := add_byte_to_bitstream bits (rnd.getD 5 0) 44
  let bits := add_byte_to_bitstream bits (rnd.getD 6 0) 52
  -- seven diversity bits at 60 .. 66 stay zero from the initial memset
  -- first 24 bits of f(RN) at 67 .. 90 (loop i = 0 .. 2, idx = 67 + 8*i)
  let bits := add_byte_to_bitstream bits (frnd.getD 0 0) 67
  let bits := add_byte_to_bitstream bits (frnd.getD 1 0) 75
  let bits := add_byte_to_bitstream bits (frnd.getD 2 0) 83
  -- final 4 bits of f(RN) at 91 .. 94
  let bits := add_nibble_to_bitstream bits ((frnd.getD 3 0 >>> 4) &&& 0xF) 91
  ⟨EM4X70_COMMAND_AUTH, ⟨95, bits⟩, ⟨20, fun _ => 0⟩⟩

def create_legacy_em4x70_bitstream_for_cmd_pin
    (with_command_parity : Bool) (tag_id : List Nat) (pin : Nat) : em4x70_command_bitstream_t :=
  let bits : Nat → Nat := fun _ => 0
  let bits :=
    if with_command_parity then
      setBit (setBit (setBit (setBit bits 0 1) 1 0) 2 0) 3 1
    else
      setBit (setBit (setBit (setBit bits 0 0) 1 1) 2 0) 3 0
  -- tag ID at 4 .. 35 (loop i = 0 .. 3, byte tag_id[3-i], idx = 4 + 8*i)
  let bits := add_byte_to_bitstream bits (tag_id.getD 3 0) 4
  let bits := add_byte_to_bitstream bits (tag_id.getD 2 0) 12
  let bits := add_byte_to_bitstream bits (tag_id.getD 1 0) 20
  let bits := add_byte_to_bitstream bits (tag_id.getD 0 0) 28
  -- PIN at 36 .. 67 (loop i = 0 .. 3, byte (pin >> 8*i) & 0xFF, idx = 36 + 8*i)
  let bits := add_byte_to_bitstream bits ((pin >>> 0) &&& 0xFF) 36
  let bits := add_byte_to_bitstream bits ((pin >>> 8) &&& 0xFF) 44
  let bits := add_byte_to_bitstream bits ((pin >>> 16) &&& 0xFF) 52
  let bits := add_byte_to_bitstream bits ((pin >>> 24) &&& 0xFF) 60
  ⟨EM4X70_COMMAND_PIN, ⟨68, bits⟩, ⟨32, fun _ => 0⟩⟩

def create_legacy_em4x70_bitstream_for_cmd_write
    (with_command_parity : Bool) (new_data address : Nat) : em4x70_command_bitstream_t :=
  let bits : Nat → Nat := fun _ => 0
  let bits :=
    if with_command_parity then
      setBit (setBit (setBit (setBit bits 0 1) 1 0) 2 1) 3 0
    else
      setBit (setBit (setBit (setBit bits 0 0) 1 1) 2 0) 3 1
  -- address &= 0x0F, then address nibble at 4..7, its parity at 8
  let bits := add_nibble_to_bitstream bits (address &&& 0x0F) 4
  let bits := add_nibble_parity_to_bitstream bits (address &&& 0x0F) 8
  -- nibble split of the 16-bit word, bytes swapped before the split
  let nibble0 := (new_data >>> 4) &&& 0xF
  let nibble1 := (new_data >>> 0) &&& 0xF
  let nibble2 := (new_data >>> 12) &&& 0xF
  let nibble3 := (new_data >>> 8) &&& 0xF
  let column_parity := nibble0 ^^^ nibble1 ^^^ nibble2 ^^^ nibble3
  -- four data nibbles, each with its parity bit (loop i = 0..3, idx = 9 + 5*i)
  let bits := add_nibble_to_bitstream bits nibble0 9
  let bits := add_nibble_parity_to_bitstream bits nibble0 13
  let bits := add_nibble_to_bitstream bits nibble1 14
  let bits := add_nibble_parity_to_bitstream bits nibble1 18
  let bits := add_nibble_to_bitstream bits nibble2 19
  let bits := add_nibble_parity_to_bitstream bits nibble2 23
  let bits := add_nibble_to_bitstream bits nibble3 24
  let bits := add_nibble_parity_to_bitstream bits nibble3 28
  -- column parity nibble at 29 .. 32
  let bits := add_nibble_to_bitstream bits column_parity 29
  -- final zero bit at 33
  let bits := setBit bits 33 0
  ⟨EM4X70_COMMAND_WRITE, ⟨34, bits⟩, ⟨0, fun _ => 0⟩⟩

/-! ## Reading bits back out of a buffer -/

/-- segBits f start n lists the n stored bits f start, f (start+1), ... -/
def segBits (f : Nat → Nat) (start : Nat) : Nat → List Nat
  | 0 => []
  | n + 1 => f start :: segBits f (start + 1) n

/-- Chronological bit sequence of a bitstream buffer: the first bitcount
stored bits. -/
def streamBits (bs : em4x70_bitstream_t) : List Nat :=
  segBits bs.one_bit_per_byte 0 bs.bitcount

/-! ## Spec-side opcode encodings (section 4.3 of the spec) -/

/-- Opcode encoding exactly as the claim words it: without parity the four
bits are 0 then the 3-bit opcode MSB first; with parity they are the three
opcode bits followed by p = b2 xor b1 xor b0 xor 1. -/
def claimed_opcode_bits (opcode : Nat) (with_command_parity : Bool) : List Nat :=
  let b2 := (opcode >>> 2) &&& 1
  let b1 := (opcode >>> 1) &&& 1
  let b0 := opcode &&& 1
  if with_command_parity then [b2, b1, b0, b2 ^^^ b1 ^^^ b0 ^^^ 1] else [0, b2, b1, b0]

/-- Amended opcode encoding: the parity bit is p = b2 xor b1 xor b0, the
even-parity completion of the four transmitted bits. -/
def even_opcode_bits (opcode : Nat) (with_command_parity : Bool) : List Nat :=
  let b2 := (opcode >>> 2) &&& 1
  let b1 := (opcode >>> 1) &&& 1
  let b0 := opcode &&& 1
  if with_command_parity then [b2, b1, b0, b2 ^^^ b1 ^^^ b0] else [0, b2, b1, b0]

/-- First four stored bits of a buffer: the command encoding slot. -/
def firstFourBits (bs : em4x70_bitstream_t) : List Nat :=
  segBits bs.one_bit_per_byte 0 4

/-- Claim C1, counterexample: for the ID command with command_parity true
the builder stores 0,0,1,1 while the formula of the claim (parity bit
b2 xor b1 xor b0 xor 1) demands 0,0,1,0.  The claimed encoding is wrong. -/
theorem c1_claimed_opcode_formula_false :
    firstFourBits (create_legacy_em4x70_bitstream_for_cmd_id true).to_send ≠
      claimed_opcode_bits EM4X70_COMMAND_ID true := by
  decide

/-- Claim C1 (amended): for every command kind and both parity flags the
first four bits of to_send equal the 4-bit opcode encoding with even
parity bit p = b2 xor b1 xor b0, and the total bitcounts are 4, 4, 4, 95,
68, 34 for ID, UM1, UM2, AUTH, PIN, WRITE. -/
theorem c1_opcode_bits_and_bitcounts (p : Bool) (rnd frnd tag_id : List Nat)
    (pin new_data address : Nat) :
    (firstFourBits (create_legacy_em4x70_bitstream_for_cmd_id p).to_send =
        even_opcode_bits EM4X70_COMMAND_ID p ∧
      (create_legacy_em4x70_bitstream_for_cmd_id p).to_send.bitcount = 4) ∧
    (firstFourBits (create_legacy_em4x70_bitstream_for_cmd_um1 p).to_send =
        even_opcode_bits EM4X70_COMMAND_UM1 p ∧
      (create_legacy_em4x70_bitstream_for_cmd_um1 p).to_send.bitcount = 4) ∧
    (firstFourBits (create_legacy_em4x70_bitstream_for_cmd_um2 p).to_send =
        even_opcode_bits EM4X70_COMMAND_UM2 p ∧
      (create_legacy_em4x70_bitstream_for_cmd_um2 p).to_send.bitcount = 4) ∧
    (firstFourBits (create_legacy_em4x70_bitstream_for_cmd_auth p rnd frnd).to_send =
        even_opcode_bits EM4X70_COMMAND_AUTH p ∧
      (create_legacy_em4x70_bitstream_for_cmd_auth p rnd frnd).to_send.bitcount = 95) ∧
    (firstFourBits (create_legacy_em4x70_bitstream_for_cmd_pin p tag_id pin).to_send =
        even_opcode_bits EM4X70_COMMAND_PIN p ∧
      (create_legacy_em4x70_bitstream_for_cmd_pin p tag_id pin).to_send.bitcount = 68) ∧
    (firstFourBits (create_legacy_em4x70_bitstream_for_cmd_write p new_data address).to_send =
        even_opcode_bits EM4X70_COMMAND_WRITE p ∧
      (create_legacy_em4x70_bitstream_for_cmd_write p new_data address).to_send.bitcount = 34) := by
  cases p <;>
    simp [create_legacy_em4x70_bitstream_for_cmd_id,
      create_legacy_em4x70_bitstream_for_cmd_um1,
      create_legacy_em4x70_bitstream_for_cmd_um2,
      create_legacy_em4x70_bitstream_for_cmd_auth,
      create_legacy_em4x70_bitstream_for_cmd_pin,
      create_legacy_em4x70_bitstream_for_cmd_write,
      add_byte_to_bitstream, add_nibble_to_bitstream,
      add_nibble_parity_to_bitstream, setBit,
      firstFourBits, segBits, even_opcode_bits,
      EM4X70_COMMAND_ID, EM4X70_COMMAND_UM1, EM4X70_COMMAND_UM2,
      EM4X70_COMMAND_AUTH, EM4X70_COMMAND_PIN, EM4X70_COMMAND_WRITE]

/-- Claim C5, counterexample: for WRITE with parity=false, address 0x05,
word 0xA53C, the column-parity bits at 29..32 are 0,0,0,0 and not the
0,1,0,0 stated by the claim (3 xor C xor A xor 5 = 0, not 4). -/
theorem c5_claimed_column_parity_false :
    segBits (create_legacy_em4x70_bitstream_for_cmd_write false 0xA53C 0x05).to_send.one_bit_per_byte
      29 4 ≠ [0, 1, 0, 0] := by
  decide

/-- Claim C5 (amended): building WRITE with parity=false, address 0x05,
word 0xA53C gives the data nibbles 3, C, A, 5 at 9..12, 14..17, 19..22,
24..27, per-nibble parity bits 0 at 13, 18, 23, 28, column parity
3 xor C xor A xor 5 = 0 at 29..32, a zero at 33, and 34 bits total. -/
theorem c5_write_example :
    segBits (create_legacy_em4x70_bitstream_for_cmd_write false 0xA53C 0x05).to_send.one_bit_per_byte
        9 4 = [0, 0, 1, 1] ∧
    segBits (create_legacy_em4x70_bitstream_for_cmd_write false 0xA53C 0x05).to_send.one_bit_per_byte
        14 4 = [1, 1, 0, 0] ∧
    segBits (create_legacy_em4x70_bitstream_for_cmd_write false 0xA53C 0x05).to_send.one_bit_per_byte
        19 4 = [1, 0, 1, 0] ∧
    segBits (create_legacy_em4x70_bitstream_for_cmd_write false 0xA53C 0x05).to_send.one_bit_per_byte
        24 4 = [0, 1, 0, 1] ∧
    (create_legacy_em4x70_bitstream_for_cmd_write false 0xA53C 0x05).to_send.one_bit_per_byte 13 = 0 ∧
    (create_legacy_em4x70_bitstream_for_cmd_write false 0xA53C 0x05).to_send.one_bit_per_byte 18 = 0 ∧
    (create_legacy_em4x70_bitstream_for_cmd_write false 0xA53C 0x05).to_send.one_bit_per_byte 23 = 0 ∧
    (create_legacy_em4x70_bitstream_for_cmd_write false 0xA53C 0x05).to_send.one_bit_per_byte 28 = 0 ∧
    (0x3 ^^^ 0xC ^^^ 0xA ^^^ 0x5) = 0 ∧
    segBits (create_legacy_em4x70_bitstream_for_cmd_write false 0xA53C 0x05).to_send.one_bit_per_byte
        29 4 = [0, 0, 0, 0] ∧
    (create_legacy_em4x70_bitstream_for_cmd_write false 0xA53C 0x05).to_send.one_bit_per_byte 33 = 0 ∧
    (create_legacy_em4x70_bitstream_for_cmd_write false 0xA53C 0x05).to_send.bitcount = 34 := by
  decide

/-! ## Arithmetic bridging lemmas

The builders test bits with masks (b &&& 0x80) while the legacy transmit
path extracts bits with shifts ((b >>> 7) &&& 1).  The lemmas below move
both presentations to a common div/mod normal form.
-/

theorem if_bit_div (b k : Nat) : (if b &&& 2 ^ k = 0 then (0:Nat) else 1) = b / 2 ^ k % 2 := by
  rw [Nat.and_two_pow, Nat.testBit_to_div_mod]
  have h2 : (0:ℕ) < 2 ^ k := by positivity
  rcases Nat.mod_two_eq_zero_or_one (b / 2 ^ k) with h | h <;> simp [h]

theorem if_bit128 (b : Nat) : (if b &&& 128 = 0 then (0:Nat) else 1) = b / 128 % 2 := by
  simpa using if_bit_div b 7

theorem if_bit64 (b : Nat) : (if b &&& 64 = 0 then (0:Nat) else 1) = b / 64 % 2 := by
  simpa using if_bit_div b 6

theorem if_bit32 (b : Nat) : (if b &&& 32 = 0 then (0:Nat) else 1) = b / 32 % 2 := by
  simpa using if_bit_div b 5

theorem if_bit16 (b : Nat) : (if b &&& 16 = 0 then (0:Nat) else 1) = b / 16 % 2 := by
  simpa using if_bit_div b 4

theorem if_bit8 (b : Nat) : (if b &&& 8 = 0 then (0:Nat) else 1) = b / 8 % 2 := by
  simpa using if_bit_div b 3

theorem if_bit4 (b : Nat) : (if b &&& 4 = 0 then (0:Nat) else 1) = b / 4 % 2 := by
  simpa using if_bit_div b 2

theorem if_bit2 (b : Nat) : (if b &&& 2 = 0 then (0:Nat) else 1) = b / 2 % 2 := by
  simpa using if_bit_div b 1

theorem if_bit1 (b : Nat) : (if b % 2 = 1 then (1:Nat) else 0) = b % 2 := by
  rcases Nat.mod_two_eq_zero_or_one b with h | h <;> simp [h]

theorem and15_eq_mod (x : Nat) : x &&& 15 = x % 16 := by
  simpa using Nat.and_pow_two_sub_one_eq_mod x 4

theorem and255_eq_mod (x : Nat) : x &&& 255 = x % 256 := by
  simpa using Nat.and_pow_two_sub_one_eq_mod x 8

theorem mod16_div8_mod2 (x : Nat) : x % 16 / 8 % 2 = x / 8 % 2 := by omega

theorem mod16_div4_mod2 (x : Nat) : x % 16 / 4 % 2 = x / 4 % 2 := by omega

theorem mod16_div2_mod2 (x : Nat) : x % 16 / 2 % 2 = x / 2 % 2 := by omega

theorem mod16_mod2 (x : Nat) : x % 16 % 2 = x % 2 := by omega

theorem segBits_length (n : Nat) : ∀ f start, (segBits f start n).length = n := by
  induction n with
  | zero => intro f start; rfl
  | succ m ih => intro f start; simp [segBits, ih]

/-! ## Legacy per-command transmit path

These functions return the chronological list of bits that the legacy C
functions push through em4x70_send_bit.  The global command_parity flag
becomes an explicit first argument.
-/

/-- Transcription of em4x70_send_nibble: when command_parity is set the
loop starts at bit 1, so only the three low opcode bits are sent; the
parity accumulator covers exactly the bits sent; an extra parity bit is
appended when requested. -/
def em4x70_send_nibble (command_parity : Bool) (nibble : Nat) (add_extra_parity_bit : Bool) :
    List Nat :=
  let sent :=
    if command_parity then
      [(nibble >>> 2) &&& 1, (nibble >>> 1) &&& 1, (nibble >>> 0) &&& 1]
    else
      [(nibble >>> 3) &&& 1, (nibble >>> 2) &&& 1, (nibble >>> 1) &&& 1, (nibble >>> 0) &&& 1]
  let parity := sent.foldl (fun a b => a ^^^ b) 0
  sent ++ (if add_extra_parity_bit then [parity] else [])

/-- Transcription of em4x70_send_byte: 8 bits, MSB first. -/
def em4x70_send_byte (byte : Nat) : List Nat :=
  [(byte >>> 7) &&& 1, (byte >>> 6) &&& 1, (byte >>> 5) &&& 1, (byte >>> 4) &&& 1,
   (byte >>> 3) &&& 1, (byte >>> 2) &&& 1, (byte >>> 1) &&& 1, (byte >>> 0) &&& 1]

/-- Transcription of em4x70_send_word: nibble split with the low byte
first, four data nibbles with parity, column parity nibble, stop bit. -/
def em4x70_send_word (command_parity : Bool) (word : Nat) : List Nat :=
  let byte0 := (word >>> 0) &&& 0xFF
  let byte1 := (word >>> 8) &&& 0xFF
  let nibble0 := (byte0 >>> 4) &&& 0xF
  let nibble1 := byte0 &&& 0xF
  let nibble2 := (byte1 >>> 4) &&& 0xF
  let nibble3 := byte1 &&& 0xF
  em4x70_send_nibble command_parity nibble0 true ++
  em4x70_send_nibble command_parity nibble1 true ++
  em4x70_send_nibble command_parity nibble2 true ++
  em4x70_send_nibble command_parity nibble3 true ++
  em4x70_send_nibble command_parity (nibble0 ^^^ nibble1 ^^^ nibble2 ^^^ nibble3) false ++
  [0]

/-- Bits sent by send_command_and_read for the ID, UM1 and UM2 commands:
a single nibble with the parity bit controlled by the session flag. -/
def send_command_and_read_sent (command_parity : Bool) (command : Nat) : List Nat :=
  em4x70_send_nibble command_parity command command_parity

/-- Bits sent by the legacy authenticate: opcode nibble without extra
parity bit, 7 nonce bytes, 7 zero diversity bits, 3 bytes of f(RN), and
the high nibble of the 4th byte of f(RN) without extra parity bit. -/
def legacy_authenticate_sent (command_parity : Bool) (rnd frnd : List Nat) : List Nat :=
  em4x70_send_nibble command_parity EM4X70_COMMAND_AUTH false ++
  em4x70_send_byte (rnd.getD 0 0) ++ em4x70_send_byte (rnd.getD 1 0) ++
  em4x70_send_byte (rnd.getD 2 0) ++ em4x70_send_byte (rnd.getD 3 0) ++
  em4x70_send_byte (rnd.getD 4 0) ++ em4x70_send_byte (rnd.getD 5 0) ++
  em4x70_send_byte (rnd.getD 6 0) ++
  [0, 0, 0, 0, 0, 0, 0] ++
  em4x70_send_byte (frnd.getD 0 0) ++ em4x70_send_byte (frnd.getD 1 0) ++
  em4x70_send_byte (frnd.getD 2 0) ++
  em4x70_send_nibble command_parity ((frnd.getD 3 0 >>> 4) &&& 0xF) false

/-- Bits sent by the legacy send_pin: opcode nibble with extra parity
bit, the 4 tag ID bytes highest index first (tag.data[7-i] equals
tag_id[3-i] for tag_id = tag.data+4), then the 4 PIN bytes low byte
first. -/
def legacy_send_pin_sent (command_parity : Bool) (tag_id : List Nat) (pin : Nat) : List Nat :=
  em4x70_send_nibble command_parity EM4X70_COMMAND_PIN true ++
  em4x70_send_byte (tag_id.getD 3 0) ++ em4x70_send_byte (tag_id.getD 2 0) ++
  em4x70_send_byte (tag_id.getD 1 0) ++ em4x70_send_byte (tag_id.getD 0 0) ++
  em4x70_send_byte ((pin >>> 0) &&& 0xFF) ++ em4x70_send_byte ((pin >>> 8) &&& 0xFF) ++
  em4x70_send_byte ((pin >>> 16) &&& 0xFF) ++ em4x70_send_byte ((pin >>> 24) &&& 0xFF)

/-- Bits sent by the legacy write: opcode nibble with extra parity bit,
address nibble with extra parity bit, then the data word. -/
def legacy_write_sent (command_parity : Bool) (word address : Nat) : List Nat :=
  em4x70_send_nibble command_parity EM4X70_COMMAND_WRITE true ++
  em4x70_send_nibble command_parity address true ++
  em4x70_send_word command_parity word

/-- Claim C2, counterexample: for AUTH with command_parity true the
legacy path sends 93 bits (it drops the opcode parity bit and the top
bit of the final nibble) while the bitstream builder produces 95. -/
theorem c2_auth_parity_paths_differ :
    legacy_authenticate_sent true [1, 2, 3, 4, 5, 6, 7] [0x11, 0x22, 0x33, 0x44] ≠
      streamBits (create_legacy_em4x70_bitstream_for_cmd_auth true
        [1, 2, 3, 4, 5, 6, 7] [0x11, 0x22, 0x33, 0x44]).to_send := by
  decide

/-- Claim C2 (amended): the legacy per-command transmitter emits exactly
the builder bit sequence for ID, UM1 and UM2 under both parity flags, for
AUTH when command_parity is false, and for PIN when command_parity is
true.  In the remaining combinations the two paths always differ: AUTH
with parity loses the opcode parity bit and the top bit of the final
nibble (93 bits instead of 95), PIN without parity gains an extra parity
bit after the opcode (69 instead of 68), and WRITE differs under both
flags (35 or 28 bits instead of 34). -/
theorem c2_legacy_transmit_vs_bitstream (p : Bool) (rnd frnd tag_id : List Nat)
    (pin new_data address : Nat) :
    (send_command_and_read_sent p EM4X70_COMMAND_ID =
        streamBits (create_legacy_em4x70_bitstream_for_cmd_id p).to_send) ∧
    (send_command_and_read_sent p EM4X70_COMMAND_UM1 =
        streamBits (create_legacy_em4x70_bitstream_for_cmd_um1 p).to_send) ∧
    (send_command_and_read_sent p EM4X70_COMMAND_UM2 =
        streamBits (create_legacy_em4x70_bitstream_for_cmd_um2 p).to_send) ∧
    (legacy_authenticate_sent false rnd frnd =
        streamBits (create_legacy_em4x70_bitstream_for_cmd_auth false rnd frnd).to_send) ∧
    (legacy_send_pin_sent true tag_id pin =
        streamBits (create_legacy_em4x70_bitstream_for_cmd_pin true tag_id pin).to_send) ∧
    (legacy_authenticate_sent true rnd frnd ≠
        streamBits (create_legacy_em4x70_bitstream_for_cmd_auth true rnd frnd).to_send) ∧
    (legacy_send_pin_sent false tag_id pin ≠
        streamBits (create_legacy_em4x70_bitstream_for_cmd_pin false tag_id pin).to_send) ∧
    (legacy_write_sent p new_data address ≠
        streamBits (create_legacy_em4x70_bitstream_for_cmd_write p new_data address).to_send) := by
  refine ⟨?_, ?_, ?_, ?_, ?_, ?_, ?_, ?_⟩
  · cases p <;> decide
  · cases p <;> decide
  · cases p <;> decide
  · simp [legacy_authenticate_sent, em4x70_send_nibble, em4x70_send_byte,
      send_command_and_read_sent, EM4X70_COMMAND_AUTH,
      create_legacy_em4x70_bitstream_for_cmd_auth,
      add_byte_to_bitstream, add_nibble_to_bitstream, setBit,
      streamBits, segBits, Nat.shiftRight_eq_div_pow,
      if_bit128, if_bit64, if_bit32, if_bit16, if_bit8, if_bit4, if_bit2, if_bit1,
      and15_eq_mod, and255_eq_mod,
      mod16_div8_mod2, mod16_div4_mod2, mod16_div2_mod2, mod16_mod2]
  · simp [legacy_send_pin_sent, em4x70_send_nibble, em4x70_send_byte,
      EM4X70_COMMAND_PIN,
      create_legacy_em4x70_bitstream_for_cmd_pin,
      add_byte_to_bitstream, setBit,
      streamBits, segBits, Nat.shiftRight_eq_div_pow,
      if_bit128, if_bit64, if_bit32, if_bit16, if_bit8, if_bit4, if_bit2, if_bit1,
      and15_eq_mod, and255_eq_mod,
      mod16_div8_mod2, mod16_div4_mod2, mod16_div2_mod2, mod16_mod2]
  · intro h
    have hl := congrArg List.length h
    simp [legacy_authenticate_sent, em4x70_send_nibble, em4x70_send_byte,
      EM4X70_COMMAND_AUTH, streamBits, segBits_length,
      create_legacy_em4x70_bitstream_for_cmd_auth] at hl
  · intro h
    have hl := congrArg List.length h
    simp [legacy_send_pin_sent, em4x70_send_nibble, em4x70_send_byte,
      EM4X70_COMMAND_PIN, streamBits, segBits_length,
      create_legacy_em4x70_bitstream_for_cmd_pin] at hl
  · intro h
    have hl := congrArg List.length h
    cases p <;>
      simp [legacy_write_sent, em4x70_send_nibble, em4x70_send_word, em4x70_send_byte,
        EM4X70_COMMAND_WRITE, streamBits, segBits_length,
        create_legacy_em4x70_bitstream_for_cmd_write] at hl

/-! ## Receive path

The demodulator consumes the list of measured pulse widths (the values
that get_pulse_length would return) instead of polling the ADC.  An
exhausted pulse list corresponds to a measurement timeout, which returns
a width of 0 and therefore fails every pulse-length check.
-/

inductive edge_detection_t where
  | RISING_EDGE
  | FALLING_EDGE
deriving DecidableEq

/-- Transcription of check_pulse_length: the pulse must lie within
TOLERANCE of the target on either side. -/
def check_pulse_length (pulse_tick_length target_tick_length : Nat) : Bool :=
  decide (target_tick_length - EM4X70_T_TAG_TOLERANCE ≤ pulse_tick_length) &&
  decide (pulse_tick_length ≤ target_tick_length + EM4X70_T_TAG_TOLERANCE)

/-- Transcription of check_ack with the two measured falling-edge pulse
lengths passed in: both must be about two full periods. -/
def check_ack (pulse1 pulse2 : Nat) : Bool :=
  check_pulse_length pulse1 (2 * EM4X70_T_TAG_FULL_PERIOD) &&
  check_pulse_length pulse2 (2 * EM4X70_T_TAG_FULL_PERIOD)

/-- Transcription of the bit-production loop of em4x70_receive (the part
after header synchronization).  The accumulated bits play the role of the
output array together with bit_pos; every append mirrors a guarded
bits[bit_pos++] store of the C code. -/
def em4x70_receive_loop :
    List Nat → edge_detection_t → Nat → List Nat → List Nat
  | [], _, _, bits => bits
  | pl :: rest, edge, maximum_bits_to_read, bits =>
    if bits.length ≥ maximum_bits_to_read then bits
    else if check_pulse_length pl EM4X70_T_TAG_FULL_PERIOD then
      -- pulse length 1: assign one bit
      em4x70_receive_loop rest edge maximum_bits_to_read
        (bits ++ [if edge = edge_detection_t.FALLING_EDGE then 1 else 0])
    else if check_pulse_length pl (3 * EM4X70_T_TAG_HALF_PERIOD) then
      -- pulse length 1.5: two bits and flip the edge detection
      match edge with
      | edge_detection_t.FALLING_EDGE =>
        let bits := bits ++ [0]
        let bits := if bits.length < maximum_bits_to_read then bits ++ [0] else bits
        em4x70_receive_loop rest edge_detection_t.RISING_EDGE maximum_bits_to_read bits
      | edge_detection_t.RISING_EDGE =>
        let bits := bits ++ [1]
        let bits := if bits.length < maximum_bits_to_read then bits ++ [1] else bits
        em4x70_receive_loop rest edge_detection_t.FALLING_EDGE maximum_bits_to_read bits
    else if check_pulse_length pl (2 * EM4X70_T_TAG_FULL_PERIOD) then
      -- pulse length 2: two bits, edge unchanged
      match edge with
      | edge_detection_t.FALLING_EDGE =>
        let bits := bits ++ [0]
        let bits := if bits.length < maximum_bits_to_read then bits ++ [1] else bits
        em4x70_receive_loop rest edge maximum_bits_to_read bits
      | edge_detection_t.RISING_EDGE =>
        let bits := bits ++ [1]
        let bits := if bits.length < maximum_bits_to_read then bits ++ [0] else bits
        em4x70_receive_loop rest edge maximum_bits_to_read bits
    else
      -- listen window or invalid bit: terminate
      bits

/-- Header search of em4x70_receive: up to EM4X70_T_READ_HEADER_LEN
pulses are examined for the 1.5-period transition from header ones to
header zeros; returns the remaining pulses on success. -/
def em4x70_receive_find_header : List Nat → Nat → Option (List Nat)
  | _, 0 => none
  | [], _ + 1 => none
  | pl :: rest, fuel + 1 =>
    if check_pulse_length pl (3 * EM4X70_T_TAG_HALF_PERIOD) then some rest
    else em4x70_receive_find_header rest fuel

/-- Consumption of the remaining three full-period header zeros; any
deviation aborts the receive. -/
def em4x70_receive_skip_zeros : List Nat → Option (List Nat)
  | p1 :: p2 :: p3 :: rest =>
    if check_pulse_length p1 EM4X70_T_TAG_FULL_PERIOD &&
       check_pulse_length p2 EM4X70_T_TAG_FULL_PERIOD &&
       check_pulse_length p3 EM4X70_T_TAG_FULL_PERIOD then some rest
    else none
  | _ => none

/-- Transcription of em4x70_receive: header search, three header zeros,
then the decode loop starting on the rising edge. -/
def em4x70_receive (pulses : List Nat) (maximum_bits_to_read : Nat) : List Nat :=
  match em4x70_receive_find_header pulses EM4X70_T_READ_HEADER_LEN with
  | none => []
  | some after_header =>
    match em4x70_receive_skip_zeros after_header with
    | none => []
    | some after_zeros =>
      em4x70_receive_loop after_zeros edge_detection_t.RISING_EDGE maximum_bits_to_read []

/-- Invariant used for claim C10: the decode loop never grows the bit
array beyond the read limit. -/
theorem em4x70_receive_loop_length_le (pulses : List Nat) :
    ∀ edge maximum_bits_to_read bits, bits.length ≤ maximum_bits_to_read →
      (em4x70_receive_loop pulses edge maximum_bits_to_read bits).length ≤
        maximum_bits_to_read := by
  induction pulses with
  | nil => intro edge m bits h; simpa [em4x70_receive_loop] using h
  | cons pl rest ih =>
    intro edge m bits h
    simp only [em4x70_receive_loop]
    rcases Nat.lt_or_ge bits.length m with hlt | hge
    · rw [if_neg (by omega)]
      split
      · exact ih _ _ _ (by simpa using hlt)
      · split
        · cases edge
          · dsimp only
            split
            · exact ih _ _ _ (by simp at *; omega)
            · exact ih _ _ _ (by simp at *; omega)
          · dsimp only
            split
            · exact ih _ _ _ (by simp at *; omega)
            · exact ih _ _ _ (by simp at *; omega)
        · split
          · cases edge
            · dsimp only
              split
              · exact ih _ _ _ (by simp at *; omega)
              · exact ih _ _ _ (by simp at *; omega)
            · dsimp only
              split
              · exact ih _ _ _ (by simp at *; omega)
              · exact ih _ _ _ (by simp at *; omega)
          · exact h
    · rw [if_pos hge]; exact h

/-- Claim C10: for every pulse sequence and every read limit,
em4x70_receive returns at most maximum_bits_to_read bits, so the second
bit of a two-bit pulse symbol is dropped rather than stored past the
limit. -/
theorem c10_receive_bounded (pulses : List Nat) (maximum_bits_to_read : Nat) :
    (em4x70_receive pulses maximum_bits_to_read).length ≤ maximum_bits_to_read := by
  rw [em4x70_receive]
  rcases hh : em4x70_receive_find_header pulses EM4X70_T_READ_HEADER_LEN with _ | after_header
  · simp
  · dsimp only
    rcases hz : em4x70_receive_skip_zeros after_header with _ | after_zeros
    · simp
    · exact em4x70_receive_loop_length_le _ _ _ _ (by simp)

/-- Claim C7, counterexample: decoding the pulse widths FULL, FULL,
2*FULL, 3*HALF, FULL from the rising edge does not produce the bit
sequence 0,0,0,1,1,1,1 stated by the claim. -/
theorem c7_claimed_bits_false :
    em4x70_receive_loop
      [EM4X70_T_TAG_FULL_PERIOD, EM4X70_T_TAG_FULL_PERIOD,
       2 * EM4X70_T_TAG_FULL_PERIOD, 3 * EM4X70_T_TAG_HALF_PERIOD,
       EM4X70_T_TAG_FULL_PERIOD]
      edge_detection_t.RISING_EDGE 64 [] ≠ [0, 0, 0, 1, 1, 1, 1] := by
  decide

/-- Claim C7 (amended): decoding the pulse widths FULL, FULL, 2*FULL,
3*HALF, FULL from the rising edge produces 0, 0, 1, 0, 1, 1, 1: a
2*FULL pulse on the rising edge emits 1 then 0, per the demodulator
table, and the 3*HALF pulse emits 1,1 and flips to the falling edge. -/
theorem c7_demodulator_output :
    em4x70_receive_loop
      [EM4X70_T_TAG_FULL_PERIOD, EM4X70_T_TAG_FULL_PERIOD,
       2 * EM4X70_T_TAG_FULL_PERIOD, 3 * EM4X70_T_TAG_HALF_PERIOD,
       EM4X70_T_TAG_FULL_PERIOD]
      edge_detection_t.RISING_EDGE 64 [] = [0, 0, 1, 0, 1, 1, 1] := by
  decide

/-- Claim C8: the ACK detector accepts exactly when both measured
falling-edge pulses lie in the closed interval [2*FULL - TOLERANCE,
2*FULL + TOLERANCE] = [672, 864] ticks. -/
theorem c8_check_ack_iff (pulse1 pulse2 : Nat) :
    check_ack pulse1 pulse2 = true ↔
      ((672 ≤ pulse1 ∧ pulse1 ≤ 864) ∧ (672 ≤ pulse2 ∧ pulse2 ≤ 864)) := by
  simp [check_ack, check_pulse_length, EM4X70_T_TAG_FULL_PERIOD,
    EM4X70_T_TAG_TOLERANCE, TICKS_PER_FC]

/-! ## Bit-to-byte conversion -/

/-- Transcription of encoded_bit_array_to_byte: left fold shifting the
uint8 accumulator (mod 256) and or-ing in each stored bit, over the
first count_of_bits entries. -/
def encoded_bit_array_to_byte (bits : List Nat) (count_of_bits : Nat) : Nat :=
  (bits.take count_of_bits).foldl (fun byte bit => byte <<< 1 % 256 ||| bit) 0

/-- Transcription of encoded_bit_array_to_bytes: the loop writes
out[num_bytes - i] from the (i-1)-th chunk of 8 bits for i = 1 ..
num_bytes, which is the reverse of the chunk-byte list. -/
def encoded_bit_array_to_bytes (bits : List Nat) (count_of_bits : Nat) : List Nat :=
  ((List.range (count_of_bits / 8)).map
    (fun k => encoded_bit_array_to_byte (bits.drop (8 * k)) 8)).reverse

/-! ## Spec-side unpacking (claim C3) -/

/-- MSB-first unpacking of one byte into eight one-bit entries, as the
claim words it. -/
def byteToBitsMSB (b : Nat) : List Nat :=
  [(b >>> 7) &&& 1, (b >>> 6) &&& 1, (b >>> 5) &&& 1, (b >>> 4) &&& 1,
   (b >>> 3) &&& 1, (b >>> 2) &&& 1, (b >>> 1) &&& 1, (b >>> 0) &&& 1]

/-- MSB-first unpacking of a byte array into a one-bit-per-entry array. -/
def bytesToBits (B : List Nat) : List Nat :=
  B.flatMap byteToBitsMSB

set_option maxRecDepth 10000 in
/-- Packing the eight unpacked bits of a byte recovers the byte. -/
theorem byte_fold_roundtrip :
    ∀ b, b < 256 →
      (byteToBitsMSB b).foldl (fun byte bit => byte <<< 1 % 256 ||| bit) 0 = b := by
  decide

/-- Claim C3: converting the MSB-first unpacking of a byte array back to
bytes yields the array in reverse byte order. -/
theorem c3_conversion_inverts_unpacking (B : List Nat) (hB : ∀ b ∈ B, b < 256) :
    encoded_bit_array_to_bytes (bytesToBits B) (8 * B.length) = B.reverse := by
  induction B with
  | nil => rfl
  | cons b t ih =>
    have hb : b < 256 := hB b (List.mem_cons_self b t)
    have ht : ∀ x ∈ t, x < 256 := fun x hx => hB x (List.mem_cons_of_mem b hx)
    have hlen : (byteToBitsMSB b).length = 8 := rfl
    have key : encoded_bit_array_to_bytes (byteToBitsMSB b ++ bytesToBits t)
        (8 * (t.length + 1))
        = encoded_bit_array_to_bytes (bytesToBits t) (8 * t.length) ++ [b] := by
      simp only [encoded_bit_array_to_bytes]
      rw [show 8 * (t.length + 1) / 8 = t.length + 1 from by omega,
          show 8 * t.length / 8 = t.length from by omega,
          List.range_succ_eq_map, List.map_cons, List.map_map]
      have h0 : encoded_bit_array_to_byte
          ((byteToBitsMSB b ++ bytesToBits t).drop (8 * 0)) 8 = b := by
        simp only [Nat.mul_zero, List.drop_zero, encoded_bit_array_to_byte,
          List.take_left' hlen]
        exact byte_fold_roundtrip b hb
      have htail : List.map ((fun k => encoded_bit_array_to_byte
            ((byteToBitsMSB b ++ bytesToBits t).drop (8 * k)) 8) ∘ Nat.succ)
            (List.range t.length)
          = List.map (fun k => encoded_bit_array_to_byte
            ((bytesToBits t).drop (8 * k)) 8) (List.range t.length) := by
        refine List.map_congr_left ?_
        intro k _
        simp only [Function.comp]
        rw [show 8 * Nat.succ k = 8 + 8 * k from by omega, ← List.drop_drop,
          List.drop_left' hlen]
      rw [h0, htail, List.reverse_cons]
    simp only [bytesToBits, List.flatMap_cons, List.length_cons] at *
    rw [key, ih ht, List.reverse_cons]

/-- Claim C3, witness at the three-byte array DE AD BE. -/
theorem c3_conversion_witness :
    (∀ b ∈ [0xDE, 0xAD, 0xBE], b < 256) ∧
    encoded_bit_array_to_bytes (bytesToBits [0xDE, 0xAD, 0xBE])
      (8 * ([0xDE, 0xAD, 0xBE] : List Nat).length) = [0xDE, 0xAD, 0xBE].reverse :=
  ⟨by decide, c3_conversion_inverts_unpacking [0xDE, 0xAD, 0xBE] (by decide)⟩

/-! ## Spec-side nibble views (claims C4 and C9) -/

/-- The four bits of a nibble, MSB first, as the claim words it. -/
def nibbleBitsMSB (n : Nat) : List Nat :=
  [(n >>> 3) &&& 1, (n >>> 2) &&& 1, (n >>> 1) &&& 1, (n >>> 0) &&& 1]

/-- XOR of the four bits of a nibble: the even-parity bit of the claims. -/
def nibbleXorBit (n : Nat) : Nat :=
  ((n >>> 3) &&& 1) ^^^ ((n >>> 2) &&& 1) ^^^ ((n >>> 1) &&& 1) ^^^ (n &&& 1)

theorem nibbleXorBit_and15 (x : Nat) : nibbleXorBit (x &&& 15) = nibbleXorBit x := by
  simp [nibbleXorBit, and15_eq_mod, Nat.shiftRight_eq_div_pow,
    mod16_div8_mod2, mod16_div4_mod2, mod16_div2_mod2, mod16_mod2]

/-- The 0x6996 table lookup of the builders computes the XOR of the four
low bits of its argument. -/
theorem nibble_parity_lookup (x : Nat) :
    (if 0x6996 &&& (1 <<< (x &&& 15)) = 0 then (0:Nat) else 1) = nibbleXorBit x := by
  have hlt : x &&& 15 < 16 := by rw [and15_eq_mod]; omega
  have base : ∀ n, n < 16 →
      (if 0x6996 &&& (1 <<< n) = 0 then (0:Nat) else 1) = nibbleXorBit n := by decide
  rw [base (x &&& 15) hlt, nibbleXorBit_and15]

/-- Claim C9: the nibble-parity helper stores, at the requested index, the
XOR of the four bits of the nibble, which is bit n of the constant
0x6996. -/
theorem c9_nibble_parity (bits : Nat → Nat) (nibble index : Nat) (h : nibble < 16) :
    add_nibble_parity_to_bitstream bits nibble index index = nibbleXorBit nibble ∧
    nibbleXorBit nibble = (0x6996 >>> nibble) &&& 1 := by
  constructor
  · show (if index = index then
        (if 0x6996 &&& (1 <<< (nibble &&& 15)) = 0 then (0:Nat) else 1)
      else bits index) = nibbleXorBit nibble
    rw [if_pos rfl]
    exact nibble_parity_lookup nibble
  · exact (show ∀ n, n < 16 → nibbleXorBit n = (0x6996 >>> n) &&& 1 from by decide)
      nibble h

/-- Claim C9, witness at nibble 5, index 0. -/
theorem c9_nibble_parity_witness :
    (5 : Nat) < 16 ∧
    (add_nibble_parity_to_bitstream (fun _ => 0) 5 0 0 = nibbleXorBit 5 ∧
     nibbleXorBit 5 = (0x6996 >>> 5) &&& 1) :=
  ⟨by decide, c9_nibble_parity (fun _ => 0) 5 0 (by decide)⟩

theorem mod16_idem (x : Nat) : x % 16 % 16 = x % 16 := by omega

theorem mod256_mod16 (x : Nat) : x % 256 % 16 = x % 16 := by omega

theorem mod256_div16_mod16 (x : Nat) : x % 256 / 16 % 16 = x / 16 % 16 := by omega

theorem nibble_parity_lookup_mod (x : Nat) :
    (if 0x6996 &&& (1 <<< (x % 16)) = 0 then (0:Nat) else 1) = nibbleXorBit x := by
  have h := nibble_parity_lookup x
  rwa [and15_eq_mod] at h

/-- Claim C4: for every word and address the WRITE builder places the
address nibble at 4..7 with its even-parity bit at 8, the four data
nibbles of the byte-swapped word, each followed by its even-parity bit,
at 9..28, the column parity (XOR of the four data nibbles) at 29..32, a
zero at 33, 34 bits in total, and no expected receive bits. -/
theorem c4_write_bitstream_layout (p : Bool) (new_data address : Nat) :
    segBits (create_legacy_em4x70_bitstream_for_cmd_write p new_data address).to_send.one_bit_per_byte 4 4
      = nibbleBitsMSB address ∧
    (create_legacy_em4x70_bitstream_for_cmd_write p new_data address).to_send.one_bit_per_byte 8
      = nibbleXorBit address ∧
    segBits (create_legacy_em4x70_bitstream_for_cmd_write p new_data address).to_send.one_bit_per_byte 9 4
      = nibbleBitsMSB (((new_data &&& 0xFF) >>> 4) &&& 0xF) ∧
    (create_legacy_em4x70_bitstream_for_cmd_write p new_data address).to_send.one_bit_per_byte 13
      = nibbleXorBit (((new_data &&& 0xFF) >>> 4) &&& 0xF) ∧
    segBits (create_legacy_em4x70_bitstream_for_cmd_write p new_data address).to_send.one_bit_per_byte 14 4
      = nibbleBitsMSB ((new_data &&& 0xFF) &&& 0xF) ∧
    (create_legacy_em4x70_bitstream_for_cmd_write p new_data address).to_send.one_bit_per_byte 18
      = nibbleXorBit ((new_data &&& 0xFF) &&& 0xF) ∧
    segBits (create_legacy_em4x70_bitstream_for_cmd_write p new_data address).to_send.one_bit_per_byte 19 4
      = nibbleBitsMSB ((((new_data >>> 8) &&& 0xFF) >>> 4) &&& 0xF) ∧
    (create_legacy_em4x70_bitstream_for_cmd_write p new_data address).to_send.one_bit_per_byte 23
      = nibbleXorBit ((((new_data >>> 8) &&& 0xFF) >>> 4) &&& 0xF) ∧
    segBits (create_legacy_em4x70_bitstream_for_cmd_write p new_data address).to_send.one_bit_per_byte 24 4
      = nibbleBitsMSB (((new_data >>> 8) &&& 0xFF) &&& 0xF) ∧
    (create_legacy_em4x70_bitstream_for_cmd_write p new_data address).to_send.one_bit_per_byte 28
      = nibbleXorBit (((new_data >>> 8) &&& 0xFF) &&& 0xF) ∧
    segBits (create_legacy_em4x70_bitstream_for_cmd_write p new_data address).to_send.one_bit_per_byte 29 4
      = nibbleBitsMSB ((((new_data &&& 0xFF) >>> 4) &&& 0xF) ^^^ ((new_data &&& 0xFF) &&& 0xF) ^^^
          ((((new_data >>> 8) &&& 0xFF) >>> 4) &&& 0xF) ^^^ (((new_data >>> 8) &&& 0xFF) &&& 0xF)) ∧
    (create_legacy_em4x70_bitstream_for_cmd_write p new_data address).to_send.one_bit_per_byte 33 = 0 ∧
    (create_legacy_em4x70_bitstream_for_cmd_write p new_data address).to_send.bitcount = 34 ∧
    (create_legacy_em4x70_bitstream_for_cmd_write p new_data address).to_receive.bitcount = 0 := by
  cases p <;>
    simp [create_legacy_em4x70_bitstream_for_cmd_write,
      add_nibble_to_bitstream, add_nibble_parity_to_bitstream, setBit, segBits,
      nibbleBitsMSB, nibbleXorBit, nibble_parity_lookup_mod,
      Nat.shiftRight_eq_div_pow, and15_eq_mod, and255_eq_mod,
      if_bit128, if_bit64, if_bit32, if_bit16, if_bit8, if_bit4, if_bit2, if_bit1,
      mod16_idem, mod256_mod16, mod256_div16_mod16,
      mod16_div8_mod2, mod16_div4_mod2, mod16_div2_mod2, mod16_mod2,
      Nat.div_div_eq_div_mul]

/-! ## Brute-force nonce mutation

The reflection helpers live in commonutil.c, which is not part of the
given source; they are modelled from the spec, which says the key is
reflected bit-wise and the nonce bytes are each reflected.
-/

/-- Modelled from the spec: reflect8 (from the missing commonutil.c)
reverses the eight bits of a byte; bit i of the input becomes bit 7-i of
the output. -/
def reflect8 (b : Nat) : Nat :=
  b / 1 % 2 * 128 + b / 2 % 2 * 64 + b / 4 % 2 * 32 + b / 8 % 2 * 16 +
  b / 16 % 2 * 8 + b / 32 % 2 * 4 + b / 64 % 2 * 2 + b / 128 % 2

theorem reflect8_lt (b : Nat) : reflect8 b < 256 := by
  unfold reflect8; omega

/-- Modelled from the spec: reflect16 (from the missing commonutil.c)
reverses the sixteen bits of a word. -/
def reflect16 (w : Nat) : Nat :=
  w / 1 % 2 * 32768 + w / 2 % 2 * 16384 + w / 4 % 2 * 8192 + w / 8 % 2 * 4096 +
  w / 16 % 2 * 2048 + w / 32 % 2 * 1024 + w / 64 % 2 * 512 + w / 128 % 2 * 256 +
  w / 256 % 2 * 128 + w / 512 % 2 * 64 + w / 1024 % 2 * 32 + w / 2048 % 2 * 16 +
  w / 4096 % 2 * 8 + w / 8192 % 2 * 4 + w / 16384 % 2 * 2 + w / 32768 % 2

/-- Modelled from the spec: reverse_arraybytes_copy (from the missing
commonutil.c) reflects each byte of the array into the destination. -/
def reverse_arraybytes_copy (arr : List Nat) : List Nat :=
  arr.map reflect8

/-- Transcription of set_byte: stores the reflection of the low byte of
value and returns the carry (1 when value exceeded 0xFF).  The pair is
(stored byte, carry). -/
def set_byte (value : Nat) : Nat × Nat :=
  (reflect8 (value % 256), if value > 0xFF then 1 else 0)

/-- Transcription of the per-candidate nonce mutation of bruteforce:
temp_rnd starts as a copy of rnd and, depending on the block address,
the reflected low byte of the reflected key is added at the starting
byte, the high byte plus carry at the next, and the carry is propagated
through byte 6.  Addresses other than 7, 8, 9 are rejected. -/
def bruteforce_temp_rnd (address : Nat) (rnd : List Nat) (k : Nat) : Option (List Nat) :=
  let rev_k := reflect16 k
  let rev_rnd := reverse_arraybytes_copy rnd
  match address with
  | 9 =>
    let p0 := set_byte (rev_rnd.getD 0 0 + (rev_k &&& 0xFF))
    let p1 := set_byte (rev_rnd.getD 1 0 + p0.2 + ((rev_k >>> 8) &&& 0xFF))
    let p2 := set_byte (rev_rnd.getD 2 0 + p1.2)
    let p3 := set_byte (rev_rnd.getD 3 0 + p2.2)
    let p4 := set_byte (rev_rnd.getD 4 0 + p3.2)
    let p5 := set_byte (rev_rnd.getD 5 0 + p4.2)
    let p6 := set_byte (rev_rnd.getD 6 0 + p5.2)
    some (((((((rnd.set 0 p0.1).set 1 p1.1).set 2 p2.1).set 3 p3.1).set 4
      p4.1).set 5 p5.1).set 6 p6.1)
  | 8 =>
    let p2 := set_byte (rev_rnd.getD 2 0 + (rev_k &&& 0xFF))
    let p3 := set_byte (rev_rnd.getD 3 0 + p2.2 + ((rev_k >>> 8) &&& 0xFF))
    let p4 := set_byte (rev_rnd.getD 4 0 + p3.2)
    let p5 := set_byte (rev_rnd.getD 5 0 + p4.2)
    let p6 := set_byte (rev_rnd.getD 6 0 + p5.2)
    some (((((rnd.set 2 p2.1).set 3 p3.1).set 4 p4.1).set 5 p5.1).set 6 p6.1)
  | 7 =>
    let p4 := set_byte (rev_rnd.getD 4 0 + (rev_k &&& 0xFF))
    let p5 := set_byte (rev_rnd.getD 5 0 + p4.2 + ((rev_k >>> 8) &&& 0xFF))
    let p6 := set_byte (rev_rnd.getD 6 0 + p5.2)
    some (((rnd.set 4 p4.1).set 5 p5.1).set 6 p6.1)
  | _ => none

/-! ## Spec-side carry recurrence (claim C6, section 4.10 of the spec) -/

/-- Carry propagation as the claim words it: at each subsequent index the
incoming carry is added to the reflected nonce byte, the sum is truncated
modulo 256 and bit-reflected before being stored, and the carry (the sum
divided by 256) moves on. -/
def spec_carry_tail (rnd : List Nat) : Nat → Nat → Nat → List Nat
  | _, _, 0 => []
  | i, c, fuel + 1 =>
    let s := reflect8 (rnd.getD i 0) + c
    reflect8 (s % 256) :: spec_carry_tail rnd (i + 1) (s / 256) fuel

/-- The mutated nonce of the claim: bytes below the starting index b stay
as in rnd; at b the low byte of rk is added, at b+1 the high byte of rk
plus the carry, and the carry propagates through byte 6. -/
def spec_mutated_rnd (rnd : List Nat) (rk b : Nat) : List Nat :=
  let s0 := reflect8 (rnd.getD b 0) + (rk &&& 0xFF)
  let s1 := reflect8 (rnd.getD (b + 1) 0) + s0 / 256 + ((rk >>> 8) &&& 0xFF)
  rnd.take b ++ reflect8 (s0 % 256) :: reflect8 (s1 % 256) ::
    spec_carry_tail rnd (b + 2) (s1 / 256) (5 - b)

set_option maxHeartbeats 3200000 in
/-- Claim C6: for every key and every 7-byte nonce the brute-force
mutation equals the spec carry recurrence, with starting index 0 for
address 9, 2 for address 8 and 4 for address 7; in particular byte 0 for
address 9 is reflect8((reflect8(rnd[0]) + (rk &&& 0xFF)) % 256). -/
theorem c6_bruteforce_carry_chain (k : Nat) (rnd : List Nat) (hlen : rnd.length = 7) :
    bruteforce_temp_rnd 9 rnd k = some (spec_mutated_rnd rnd (reflect16 k) 0) ∧
    bruteforce_temp_rnd 8 rnd k = some (spec_mutated_rnd rnd (reflect16 k) 2) ∧
    bruteforce_temp_rnd 7 rnd k = some (spec_mutated_rnd rnd (reflect16 k) 4) := by
  rcases rnd with _ | ⟨a0, rnd⟩; · simp at hlen
  rcases rnd with _ | ⟨a1, rnd⟩; · simp at hlen
  rcases rnd with _ | ⟨a2, rnd⟩; · simp at hlen
  rcases rnd with _ | ⟨a3, rnd⟩; · simp at hlen
  rcases rnd with _ | ⟨a4, rnd⟩; · simp at hlen
  rcases rnd with _ | ⟨a5, rnd⟩; · simp at hlen
  rcases rnd with _ | ⟨a6, rnd⟩; · simp at hlen
  rcases rnd with _ | ⟨a7, rnd⟩
  case cons.cons.cons.cons.cons.cons.cons.cons => simp at hlen
  have hb0 := reflect8_lt a0
  have hb1 := reflect8_lt a1
  have hb2 := reflect8_lt a2
  have hb3 := reflect8_lt a3
  have hb4 := reflect8_lt a4
  have hb5 := reflect8_lt a5
  have hb6 := reflect8_lt a6
  have hk1 : reflect16 k &&& 0xFF ≤ 255 := Nat.and_le_right
  have hk2 : (reflect16 k >>> 8) &&& 0xFF ≤ 255 := Nat.and_le_right
  refine ⟨?_, ?_, ?_⟩ <;>
  · simp only [bruteforce_temp_rnd, spec_mutated_rnd, spec_carry_tail, set_byte,
      reverse_arraybytes_copy, List.map_cons, List.map_nil]
    simp [List.getD]
    repeat' apply And.intro
    all_goals (congr 1; split_ifs <;> omega)

/-- Claim C6, witness at key 0x1234 and nonce 01 02 03 04 05 06 07. -/
theorem c6_bruteforce_carry_chain_witness :
    ([1, 2, 3, 4, 5, 6, 7] : List Nat).length = 7 ∧
    (bruteforce_temp_rnd 9 [1, 2, 3, 4, 5, 6, 7] 0x1234 =
        some (spec_mutated_rnd [1, 2, 3, 4, 5, 6, 7] (reflect16 0x1234) 0) ∧
      bruteforce_temp_rnd 8 [1, 2, 3, 4, 5, 6, 7] 0x1234 =
        some (spec_mutated_rnd [1, 2, 3, 4, 5, 6, 7] (reflect16 0x1234) 2) ∧
      bruteforce_temp_rnd 7 [1, 2, 3, 4, 5, 6, 7] 0x1234 =
        some (spec_mutated_rnd [1, 2, 3, 4, 5, 6, 7] (reflect16 0x1234) 4)) :=
  ⟨by decide, c6_bruteforce_carry_chain 0x1234 [1, 2, 3, 4, 5, 6, 7] (by decide)⟩
